import Mathlib

/-!
Verification development for the `make-something-webhook` repository:
a shallow embedding of the two webhook-transformation pipelines
(`chalicelib/parse_backlog.py` and `chalicelib/parse_kibela.py`) together
with proofs of the specified properties.

JSON payloads are modelled by the inductive type `Json`; Python runtime
behaviour relevant to the code (dict indexing raising `KeyError`,
`.get` with defaults, truthiness, `int()` conversion, f-string rendering,
`in` membership, list iteration) is modelled by explicit total functions
returning `Except PyErr`.
-/

/-- A JSON value, as carried by a Python object tree: `null` is Python
`None`, `num` an `int`, and objects keep their key order. -/
inductive Json where
  | null : Json
  | bool : Bool → Json
  | num : Int → Json
  | str : String → Json
  | arr : List Json → Json
  | obj : List (String × Json) → Json

/-- The Python exceptions the embedded code can raise. -/
inductive PyErr where
  | keyError : String → PyErr
  | typeError : PyErr
  | attributeError : PyErr
  | valueError : String → PyErr
deriving DecidableEq, Repr

/-- First-match lookup in an association list, modelling Python dict access. -/
def jlookup : List (String × Json) → String → Option Json
  | [], _ => none
  | (k, v) :: rest, key => if k = key then some v else jlookup rest key

/-- `j[k]` viewed as a partial map: `some v` when `j` is a dict holding `k`. -/
def Json.find? : Json → String → Option Json
  | .obj kvs, k => jlookup kvs k
  | _, _ => none

/-- Python truthiness (`bool(x)`) of a JSON value. -/
def truthy : Json → Bool
  | .null => false
  | .bool b => b
  | .num n => n != 0
  | .str s => !s.data.isEmpty
  | .arr l => !l.isEmpty
  | .obj l => !l.isEmpty

/-- Python `j[k]` with a string key: `KeyError` when a dict lacks the key,
`TypeError` on any non-dict. -/
def pyIndex (j : Json) (k : String) : Except PyErr Json :=
  match j with
  | .obj kvs =>
    match jlookup kvs k with
    | some v => .ok v
    | none => .error (.keyError k)
  | _ => .error .typeError

/-- Python `j.get(k, d)`: only dicts have `.get`, everything else raises
`AttributeError`. -/
def pyGet (j : Json) (k : String) (d : Json) : Except PyErr Json :=
  match j with
  | .obj kvs =>
    .ok (match jlookup kvs k with
         | some v => v
         | none => d)
  | _ => .error .attributeError

/-- Python `len(j)`: defined on strings (character count), lists and dicts. -/
def pyLen (j : Json) : Except PyErr Nat :=
  match j with
  | .str s => .ok s.data.length
  | .arr l => .ok l.length
  | .obj l => .ok l.length
  | _ => .error .typeError

mutual
/-- Python `repr()` of a JSON value (strings are single-quoted; containers
render their elements by `repr`). -/
def pyRepr : Json → String
  | .null => "None"
  | .bool true => "True"
  | .bool false => "False"
  | .num n => toString n
  | .str s => "'" ++ s ++ "'"
  | .arr l => "[" ++ String.intercalate ", " (pyReprList l) ++ "]"
  | .obj l => "\x7b" ++ String.intercalate ", " (pyReprKVs l) ++ "\x7d"

/-- `repr` of each element of a list. -/
def pyReprList : List Json → List String
  | [] => []
  | x :: xs => pyRepr x :: pyReprList xs

/-- `repr` of each `key: value` entry of a dict. -/
def pyReprKVs : List (String × Json) → List String
  | [] => []
  | (k, v) :: xs => ("'" ++ k ++ "': " ++ pyRepr v) :: pyReprKVs xs
end

instance : Repr Json := ⟨fun j _ => Std.Format.text (pyRepr j)⟩

/-- Python `str()` of a JSON value, as used by f-string interpolation. -/
def pyStr : Json → String
  | .null => "None"
  | .bool true => "True"
  | .bool false => "False"
  | .num n => toString n
  | .str s => s
  | .arr l => "[" ++ String.intercalate ", " (pyReprList l) ++ "]"
  | .obj l => "\x7b" ++ String.intercalate ", " (pyReprKVs l) ++ "\x7d"

/-- Digit-string value for Python `int(str)`: ASCII digits with single
underscores allowed between digits, accumulating into `acc`. -/
def pyDigitsCore : List Char → Nat → Option Nat
  | [], acc => some acc
  | c :: rest, acc =>
    if c.isDigit then pyDigitsCore rest (acc * 10 + (c.toNat - 48))
    else if c = '_' then
      match rest with
      | d :: _ => if d.isDigit then pyDigitsCore rest acc else none
      | [] => none
    else none

/-- Digit-run parser: requires a leading digit (no leading underscore). -/
def pyDigitsVal : List Char → Option Nat
  | [] => none
  | c :: rest => if c.isDigit then pyDigitsCore (c :: rest) 0 else none

/-- Strip leading and trailing whitespace, as Python `int()` does. -/
def stripWs (l : List Char) : List Char :=
  ((l.dropWhile Char.isWhitespace).reverse.dropWhile Char.isWhitespace).reverse

/-- Python `int(s)` on a string: optional sign, ASCII digit run. -/
def pyStrToInt (s : String) : Option Int :=
  match stripWs s.data with
  | '+' :: rest => (pyDigitsVal rest).map Int.ofNat
  | '-' :: rest => (pyDigitsVal rest).map (fun n => -(n : Int))
  | l => (pyDigitsVal l).map Int.ofNat

/-- The `_int` helper of `Milestone.get_title_url`: Python `int(e)` with
`ValueError` silently mapped to `None` and any other exception (here
`TypeError`) logged then mapped to `None`.  Returns the value and whether
the diagnostic line was printed. -/
def intConv : Json → Option Int × Bool
  | .num n => (some n, false)
  | .bool b => (some (if b then 1 else 0), false)
  | .str s =>
    (match pyStrToInt s with
     | some n => (some n, false)
     | none => (none, false))
  | .null => (none, true)
  | .arr _ => (none, true)
  | .obj _ => (none, true)

/-- Python truthiness of the `Optional[int]` returned by `_int`. -/
def truthyOptInt : Option Int → Bool
  | some n => n != 0
  | none => false

/-- Whether `pat` occurs at the start of the second list. -/
def seqStarts : List Char → List Char → Bool
  | [], _ => true
  | _ :: _, [] => false
  | p :: ps, c :: cs => p = c && seqStarts ps cs

/-- Whether `pat` occurs as a contiguous run anywhere in the list
(Python substring membership). -/
def seqContains (pat : List Char) : List Char → Bool
  | [] => seqStarts pat []
  | c :: cs => seqStarts pat (c :: cs) || seqContains pat cs

/-- Python `k in j` for a string `k`: key membership on dicts, element
membership (string equality) on lists, substring test on strings,
`TypeError` otherwise. -/
def pyContains (k : String) (j : Json) : Except PyErr Bool :=
  match j with
  | .obj kvs => .ok ((jlookup kvs k).isSome)
  | .arr l =>
    .ok (l.any (fun x => match x with
                         | .str s => s = k
                         | _ => false))
  | .str s => .ok (seqContains k.data s.data)
  | _ => .error .typeError

/-- Python `for x in j`: lists yield elements, strings yield one-character
strings, dicts yield their keys; other values are not iterable. -/
def pyIterate (j : Json) : Except PyErr (List Json) :=
  match j with
  | .arr l => .ok l
  | .str s => .ok (s.data.map (fun c => .str (String.mk [c])))
  | .obj kvs => .ok (kvs.map (fun p => .str p.1))
  | _ => .error .typeError

/-- The truncation text operation shared by both parsers:
`text[:limit] + sfx` when `len(text) > limit`, else `text` unchanged. -/
def truncTxt (limit : Nat) (sfx : List Char) (t : List Char) : List Char :=
  if limit < t.length then t.take limit ++ sfx else t

/-- The localized truncation marker `（省略されました）`. -/
def truncMarker : List Char := "（省略されました）".data

/-- The in-code truncation step on a Python value:
`if len(x) > limit: x = x[:limit] + marker`.  Slicing a non-string and
concatenating the marker raises `TypeError`. -/
def truncAt (limit : Nat) (j : Json) : Except PyErr Json := do
  let n ← pyLen j
  if limit < n then
    match j with
    | .str s => .ok (.str (String.mk (truncTxt limit truncMarker s.data)))
    | _ => .error .typeError
  else
    .ok j

/-- A `fields` entry of an embed: the dict
`{"name": ..., "value": ..., "inline": True}` built by the parsers. -/
structure MsgField where
  name : Json
  value : Json
  inl : Bool
deriving Repr

/-- One embed of the outgoing message; `fields` is `none` exactly when the
`"fields"` key is absent from the embed dict. -/
structure Embed where
  author : Json
  title : Json
  url : Json
  description : Json
  fields : Option (List MsgField)
deriving Repr

/-- The outgoing post body: `username`, `content` and the `embeds` list. -/
structure Message where
  username : String
  content : String
  embeds : List Embed
deriving Repr

/-- The five capability values a transformer produces before assembly:
author name, title, title url, description, and the extra-fields list. -/
structure EmbedComps where
  author : Json
  title : Json
  url : Json
  description : Json
  fields : List MsgField

/-- `ParseMixin.parse`: assembles the base dict, the single embed from
`create_embeds`, and attaches `fields` only when the list is truthy. -/
def mkMsg (username bdesc : String) (c : EmbedComps) : Message :=
  { username := username
    content := bdesc
    embeds := [{ author := c.author
                 title := c.title
                 url := c.url
                 description := c.description
                 fields := if c.fields.isEmpty then none else some c.fields }] }

namespace Backlog

/-- The transformer variants of `parse_backlog.py`, one per dispatch-table
entry. -/
inductive BVariant where
  | createIssue | updateIssue | deleteIssue | comment
  | createMilestone | updateMilestone | deleteMilestone | multiUpdate
deriving DecidableEq, Repr

/-- The fixed dispatch table of `create_post_body` keyed by the integer
`type` code. -/
def table (n : Int) : Option BVariant :=
  if n = 1 then some .createIssue
  else if n = 2 then some .updateIssue
  else if n = 4 then some .deleteIssue
  else if n = 3 then some .comment
  else if n = 22 then some .createMilestone
  else if n = 23 then some .updateMilestone
  else if n = 24 then some .deleteMilestone
  else if n = 14 then some .multiUpdate
  else none

/-- `mp.get(action_type)`: Python dict lookup with `int` keys — `bool`
compares equal to its numeric value, unhashable values raise `TypeError`,
any other value simply misses. -/
def tableLookup : Json → Except PyErr (Option BVariant)
  | .arr _ => .error .typeError
  | .obj _ => .error .typeError
  | .num n => .ok (table n)
  | .bool b => .ok (table (if b then 1 else 0))
  | .null => .ok none
  | .str _ => .ok none

/-- `BASE_DESCRITION_MESSAGE` of each variant (`base_description`). -/
def baseDesc : BVariant → String
  | .createIssue => "課題を作成しました"
  | .updateIssue => "課題を更新しました"
  | .deleteIssue => "課題を削除しました"
  | .comment => "コメントを追加しました"
  | .createMilestone => "マイルストーンを作成しました"
  | .updateMilestone => "マイルストーンを更新しました"
  | .deleteMilestone => "マイルストーンを削除しました"
  | .multiUpdate => "課題を複数更新しました"

/-- `Issue.get_username` (shared by all backlog variants):
`self.data["createdUser"].get("name", "名前なし")`. -/
def get_username (data : Json) : Except PyErr Json := do
  let u ← pyIndex data "createdUser"
  pyGet u "name" (.str "名前なし")

/-- `Issue.get_title`: `self.data["content"].get("summary", "タイトルなし")`. -/
def issue_get_title (data : Json) : Except PyErr Json := do
  let content ← pyIndex data "content"
  pyGet content "summary" (.str "タイトルなし")

/-- `Issue.get_title_url`:
`f"{base_url}/view/{project_prefix}-{issue_id}"` from `content["key_id"]`. -/
def issue_get_title_url (bu pfx : String) (data : Json) : Except PyErr Json := do
  let content ← pyIndex data "content"
  let issue_id ← pyIndex content "key_id"
  pure (.str (bu ++ "/view/" ++ pfx ++ "-" ++ pyStr issue_id))

/-- `Issue.get_description`: the 500-character truncation of
`content.get("description", "説明なし")`. -/
def issue_get_description (data : Json) : Except PyErr Json := do
  let content ← pyIndex data "content"
  let d ← pyGet content "description" (.str "説明なし")
  truncAt 500 d

/-- `_get_dict` inside `Issue.create_fields`: `cont.get(key, {})` collapsed
to `{}` when falsy. -/
def get_dict (cont : Json) (key : String) : Except PyErr Json := do
  let elem ← pyGet cont key (.obj [])
  if truthy elem then pure elem else pure (.obj [])

/-- `_parse_some_versions`: `content_[key]`, then the `name` of its first
element when the value is truthy, else `None`. -/
def parse_some_versions (content : Json) (key : String) : Except PyErr Json := do
  let m ← pyIndex content key
  if truthy m then
    match m with
    | .arr (x :: _) => pyIndex x "name"
    | .arr [] => .error .typeError
    | .obj _ => .error (.keyError "0")
    | _ => .error .typeError
  else
    pure .null

/-- The values extracted by `Issue.create_fields`, in evaluation order. -/
structure IssueFields where
  issue_type : Json
  assignee : Json
  priority : Json
  status : Json
  milestone : Json
  versions : Json
  due_date : Json

/-- `Issue.create_fields` / `Comment.create_fields` (identical code). -/
def create_fields (data : Json) : Except PyErr IssueFields := do
  let content ← pyIndex data "content"
  let itD ← get_dict content "issueType"
  let issue_type ← pyGet itD "name" .null
  let asD ← get_dict content "assignee"
  let asName ← pyGet asD "name" .null
  let assignee := if truthy asName then asName else .str "未指定"
  let prD ← get_dict content "priority"
  let priority ← pyGet prD "name" .null
  let stD ← pyGet content "status" (.obj [])
  let status ← pyGet stD "name" .null
  let milestone ← parse_some_versions content "milestone"
  let versions ← parse_some_versions content "versions"
  let due_date ← pyGet content "dueDate" .null
  pure ⟨issue_type, assignee, priority, status, milestone, versions, due_date⟩

/-- The seven candidate field dicts of `Issue._parse`, before filtering. -/
def issueCandidates (f : IssueFields) : List MsgField :=
  [⟨.str "種別", f.issue_type, true⟩,
   ⟨.str "担当者", f.assignee, true⟩,
   ⟨.str "優先度", f.priority, true⟩,
   ⟨.str "ステータス", f.status, true⟩,
   ⟨.str "マイルストーン", f.milestone, true⟩,
   ⟨.str "発生バージョン", f.versions, true⟩,
   ⟨.str "期限日", f.due_date, true⟩]

/-- `Issue._parse` / `Comment._parse`: the candidates filtered by the
truthiness of `e.get("value")`. -/
def issue_parse (data : Json) : Except PyErr (List MsgField) := do
  let f ← create_fields data
  pure ((issueCandidates f).filter (fun e => truthy e.value))

/-- `DeleteIssue.get_title`: `f"{project_prefix}-{issue_id}"`. -/
def delete_get_title (pfx : String) (data : Json) : Except PyErr Json := do
  let content ← pyIndex data "content"
  let issue_id ← pyIndex content "key_id"
  pure (.str (pfx ++ "-" ++ pyStr issue_id))

/-- `Comment.get_description`: the 500-character truncation of
`content.get("comment", {}).get("content", "説明なし")`. -/
def comment_get_description (data : Json) : Except PyErr Json := do
  let content ← pyIndex data "content"
  let c0 ← pyGet content "comment" (.obj [])
  let d ← pyGet c0 "content" (.str "説明なし")
  truncAt 500 d

/-- The deep link built by `Milestone.get_title_url` on the truthy-ids
path, rendering the raw `project.id` and `content.id` values. -/
def milestoneDeepLink (bu pfx : String) (project_id mid : Json) : String :=
  bu ++ "/find/" ++ pfx ++ "?projectId=" ++ pyStr project_id ++
    "&fixedVersionId=" ++ pyStr mid

/-- The project top-page fallback `f"{base_url}/projects/{project_prefix}"`. -/
def projectTopUrl (bu pfx : String) : String :=
  bu ++ "/projects/" ++ pfx

/-- `Milestone.get_title_url`: the search deep link when `_int` of both ids
is truthy (short-circuit `and`), else the project top page; the returned
list holds the diagnostic lines printed by `_int`. -/
def milestone_get_title_url (bu pfx : String) (data : Json) :
    Except PyErr (List String × String) := do
  let project ← pyGet data "project" (.obj [])
  let content ← pyGet data "content" (.obj [])
  let project_id ← pyGet project "id" .null
  let mid ← pyGet content "id" .null
  let (p1, l1) := intConv project_id
  if truthyOptInt p1 then
    let (p2, l2) := intConv mid
    let lg := (if l1 then ["idに数値以外が入ってきている"] else []) ++
      (if l2 then ["idに数値以外が入ってきている"] else [])
    if truthyOptInt p2 then
      pure (lg, milestoneDeepLink bu pfx project_id mid)
    else
      pure (lg, projectTopUrl bu pfx)
  else
    pure ((if l1 then ["idに数値以外が入ってきている"] else []),
      projectTopUrl bu pfx)

/-- `Milestone.get_title`: `content.get("name", "名称無し")`. -/
def milestone_get_title (data : Json) : Except PyErr Json := do
  let content ← pyIndex data "content"
  pyGet content "name" (.str "名称無し")

/-- `Milestone.get_description`: `content.get("description", "説明なし")`
(no truncation). -/
def milestone_get_description (data : Json) : Except PyErr Json := do
  let content ← pyIndex data "content"
  pyGet content "description" (.str "説明なし")

/-- `Milestone._parse`: start/reference dates read from the top-level
payload, filtered by value truthiness. -/
def milestone_parse (data : Json) : Except PyErr (List MsgField) := do
  let sd ← pyGet data "start_date" .null
  let rd ← pyGet data "reference_date" .null
  pure (([⟨.str "開始日", sd, true⟩, ⟨.str "終了日", rd, true⟩] :
    List MsgField).filter (fun e => truthy e.value))

/-- One iteration step of the `MultiUpdateIssue.get_description` loop:
extracts `key_id`, `title` and the optional nested comment, builds the
markdown line, and threads the captured comment (later truthy comments
overwrite earlier ones). -/
def multiLoop (bu pfx : String) :
    List Json → Json → Except PyErr (List String × Json)
  | [], comment => .ok ([], comment)
  | d :: rest, comment => do
    let issue_id ← pyIndex d "key_id"
    let issue_title ← pyIndex d "title"
    let c0 ← pyGet d "comment" (.obj [])
    let c ← pyGet c0 "content" .null
    let comment2 := if truthy c then c else comment
    let line := "[" ++ pfx ++ "-" ++ pyStr issue_id ++ " " ++
      pyStr issue_title ++ "](" ++ bu ++ "/view/" ++ pfx ++ "-" ++
      pyStr issue_id ++ ")"
    let (lines, cf) ← multiLoop bu pfx rest comment2
    .ok (line :: lines, cf)

/-- `MultiUpdateIssue.get_description`: iterates `content["link"]`, joins
the per-issue lines with newlines (`or "内容無し"` when falsy), and returns
the final captured comment alongside. -/
def multi_get_description (bu pfx : String) (data : Json) :
    Except PyErr (Json × Json) := do
  let content ← pyIndex data "content"
  let link_content ← pyIndex content "link"
  let items ← pyIterate link_content
  let (lines, comment) ← multiLoop bu pfx items .null
  let s := String.intercalate "\n" lines
  pure (.str (if truthy (.str s) then s else "内容無し"), comment)

/-- The `content.changes` loop of `MultiUpdateIssue._parse`: one field per
entry, named by `d["field"]`, valued by `d.get("new_value", "変更有")`,
with no truthiness filter. -/
def changesLoop : List Json → Except PyErr (List MsgField)
  | [] => .ok []
  | d :: rest => do
    let name ← pyIndex d "field"
    let value ← pyGet d "new_value" (.str "変更有")
    let fs ← changesLoop rest
    .ok (⟨name, value, true⟩ :: fs)

/-- `MultiUpdateIssue._parse`: the optional 300-character-truncated comment
field followed by the change fields. -/
def multi_parse (data : Json) (comment : Json) : Except PyErr (List MsgField) := do
  let cf ← (if truthy comment then do
      let c ← truncAt 300 comment
      pure [(⟨.str "コメント", c, true⟩ : MsgField)]
    else
      pure [])
  let content ← pyIndex data "content"
  let changes ← pyIndex content "changes"
  if truthy changes then do
    let items ← pyIterate changes
    let chf ← changesLoop items
    pure (cf ++ chf)
  else
    pure cf

/-- The capability values of one backlog variant on one payload, in the
evaluation order of `ParseMixin.parse`, with the diagnostic lines printed
along the way. -/
def comps (bu pfx : String) : BVariant → Json → List String × Except PyErr EmbedComps
  | .createIssue, data => ([], do
      let u ← get_username data
      let t ← issue_get_title data
      let url ← issue_get_title_url bu pfx data
      let desc ← issue_get_description data
      let flds ← issue_parse data
      pure ⟨u, t, url, desc, flds⟩)
  | .updateIssue, data => ([], do
      let u ← get_username data
      let t ← issue_get_title data
      let url ← issue_get_title_url bu pfx data
      let desc ← issue_get_description data
      let flds ← issue_parse data
      pure ⟨u, t, url, desc, flds⟩)
  | .deleteIssue, data => ([], do
      let u ← get_username data
      let t ← delete_get_title pfx data
      let url ← issue_get_title_url bu pfx data
      pure ⟨u, t, url, .str "", []⟩)
  | .comment, data => ([], do
      let u ← get_username data
      let t ← issue_get_title data
      let url ← issue_get_title_url bu pfx data
      let desc ← comment_get_description data
      let flds ← issue_parse data
      pure ⟨u, t, url, desc, flds⟩)
  | .createMilestone, data => milestoneComps bu pfx data
  | .updateMilestone, data => milestoneComps bu pfx data
  | .deleteMilestone, data => milestoneComps bu pfx data
  | .multiUpdate, data => ([], do
      let u ← get_username data
      let (desc, comment) ← multi_get_description bu pfx data
      let flds ← multi_parse data comment
      pure ⟨u, .str "", .str (projectTopUrl bu pfx), desc, flds⟩)
where
  /-- The milestone variants share all capability logic. -/
  milestoneComps (bu pfx : String) (data : Json) :
      List String × Except PyErr EmbedComps :=
    match get_username data with
    | .error e => ([], .error e)
    | .ok u =>
      match milestone_get_title data with
      | .error e => ([], .error e)
      | .ok t =>
        match milestone_get_title_url bu pfx data with
        | .error e => ([], .error e)
        | .ok (lg, url) =>
          match milestone_get_description data with
          | .error e => (lg, .error e)
          | .ok desc =>
            match milestone_parse data with
            | .error e => (lg, .error e)
            | .ok flds => (lg, .ok ⟨u, t, .str url, desc, flds⟩)

/-- Running one variant: compute the capabilities then assemble via
`ParseMixin.parse`. -/
def run (bu pfx : String) (v : BVariant) (data : Json) :
    List String × Except PyErr Message :=
  ((comps bu pfx v data).1,
   (comps bu pfx v data).2.map (mkMsg "backlog webhook" (baseDesc v)))

/-- `parse_backlog.create_post_body`: reads `data["type"]`, dispatches
through the fixed table, logging and failing with
`ValueError(f"Unknown type: {action_type}")` on unknown codes. -/
def create_post_body (bu pfx : String) (data : Json) :
    List String × Except PyErr Message :=
  match pyIndex data "type" with
  | .error e => ([], .error e)
  | .ok t =>
    match tableLookup t with
    | .error e => ([], .error e)
    | .ok none =>
      let msg := "Unknown type: " ++ pyStr t
      ([msg], .error (.valueError msg))
    | .ok (some v) => run bu pfx v data

end Backlog

namespace Kibela

/-- The transformer variants of `parse_kibela.py`, one per entry of the
nested dispatch table. -/
inductive KVariant where
  | createBlog | updateBlog | deleteBlog
  | createWiki | updateWiki | deleteWiki
  | createComment | updateComment | deleteComment
  | createReply | updateReply | deleteReply
deriving DecidableEq, Repr

/-- The nested dispatch table keyed by `resource_type` then `action`. -/
def table (resource action : String) : Option KVariant :=
  if resource = "blog" then
    if action = "create" then some .createBlog
    else if action = "update" then some .updateBlog
    else if action = "delete" then some .deleteBlog
    else none
  else if resource = "wiki" then
    if action = "create" then some .createWiki
    else if action = "update" then some .updateWiki
    else if action = "delete" then some .deleteWiki
    else none
  else if resource = "comment" then
    if action = "create" then some .createComment
    else if action = "update" then some .updateComment
    else if action = "delete" then some .deleteComment
    else none
  else if resource = "comment_reply" then
    if action = "create" then some .createReply
    else if action = "update" then some .updateReply
    else if action = "delete" then some .deleteReply
    else none
  else none

/-- `mp.get(resource, {}).get(action_type, {})`: both lookups need hashable
keys; non-string keys simply miss the string-keyed tables. -/
def tableLookup (resource action : Json) : Except PyErr (Option KVariant) :=
  match resource with
  | .arr _ => .error .typeError
  | .obj _ => .error .typeError
  | _ =>
    match action with
    | .arr _ => .error .typeError
    | .obj _ => .error .typeError
    | _ =>
      match resource, action with
      | .str r, .str a => .ok (table r a)
      | _, _ => .ok none

/-- `BASE_DESCRITION_MESSAGE` of each variant. -/
def baseDesc : KVariant → String
  | .createBlog => "記事が作成されました"
  | .updateBlog => "記事が更新されました"
  | .deleteBlog => "記事が削除されました"
  | .createWiki => "記事が作成されました"
  | .updateWiki => "記事が更新されました"
  | .deleteWiki => "記事が削除されました"
  | .createComment => "コメントが付きました"
  | .updateComment => "コメントが更新されました"
  | .deleteComment => "コメントが削除されました"
  | .createReply => "コメントが付きました"
  | .updateReply => "コメントが更新されました"
  | .deleteReply => "コメントが削除されました"

/-- `Article.__init__`: reads `resource_type`, `action_user`, then the
resource sub-object `data[resource]`; a non-string `resource_type` misses
or fails on the string-keyed payload dict. -/
def articleInit (data : Json) : Except PyErr (Json × Json) := do
  let r ← pyIndex data "resource_type"
  let user ← pyIndex data "action_user"
  match r with
  | .str rs => do
    let d ← pyIndex data rs
    pure (d, user)
  | .arr _ => .error .typeError
  | .obj _ => .error .typeError
  | other => .error (.keyError (pyStr other))

/-- `Article.get_author` / `CommentBase.get_author` (identical code):
a single `author` object yields its `account`; an `authors` list yields
the comma-joined accounts; neither key yields the empty string. -/
def get_author (content : Json) : Except PyErr Json := do
  let hasA ← pyContains "author" content
  if hasA then do
    let author ← pyGet content "author" .null
    pyGet author "account" .null
  else do
    let hasAs ← pyContains "authors" content
    if hasAs then do
      let authors ← pyGet content "authors" .null
      match authors with
      | .arr l => do
        let accounts ← l.mapM (fun a => pyGet a "account" .null)
        let strs ← accounts.mapM (fun a =>
          match a with
          | .str s => Except.ok s
          | _ => Except.error PyErr.typeError)
        pure (.str (String.intercalate ", " strs))
      | .str s => if s.data.isEmpty then pure (.str "") else .error .attributeError
      | .obj kvs => if kvs.isEmpty then pure (.str "") else .error .attributeError
      | _ => .error .typeError
    else
      pure (.str "")

/-- `CommentBase.get_author`: a verbatim duplicate of `Article.get_author`
in the source. -/
def comment_get_author (content : Json) : Except PyErr Json :=
  get_author content

/-- `Blog._parse` / `Wiki._parse`: a single article-author field, included
only when the resolved author string is truthy (`get_extra_fields` is
empty in every variant). -/
def article_parse (d : Json) : Except PyErr (List MsgField) := do
  let author ← get_author d
  if truthy author then
    pure [⟨.str "記事の作成者", author, true⟩]
  else
    pure []

/-- `self.data["title"] or ""` (also used for `url`): the raw value when
truthy, else the empty string. -/
def orEmpty (d : Json) (key : String) : Except PyErr Json := do
  let v ← pyIndex d key
  pure (if truthy v then v else .str "")

/-- The `content_md` description shared by the create/update article and
comment variants: `self.data["content_md"]` truncated at 500 characters. -/
def md_description (d : Json) : Except PyErr Json := do
  let c ← pyIndex d "content_md"
  truncAt 500 c

/-- `UpdateBlog.get_description` / `UpdateWiki.get_description`:
`content_diff` truncated at 500 characters then wrapped in a diff code
block. -/
def diff_description (d : Json) : Except PyErr Json := do
  let c ← pyIndex d "content_diff"
  let t ← truncAt 500 c
  pure (.str ("```diff\n" ++ pyStr t ++ "\n```"))

/-- Which description rule a variant applies. -/
inductive DescKind where
  | md | diff | empty
deriving DecidableEq, Repr

/-- Dispatch of the description rule. -/
def descOf (k : DescKind) (d : Json) : Except PyErr Json :=
  match k with
  | .md => md_description d
  | .diff => diff_description d
  | .empty => pure (.str "")

/-- The capability values of a blog/wiki variant, in the evaluation order
of `__init__` then `ParseMixin.parse`. -/
def articleComps (k : DescKind) (data : Json) : Except PyErr EmbedComps := do
  let (d, user) ← articleInit data
  let u ← pyIndex user "account"
  let t ← orEmpty d "title"
  let url ← orEmpty d "url"
  let desc ← descOf k d
  let flds ← article_parse d
  pure ⟨u, t, url, desc, flds⟩

/-- `CommentBase.__init__` article resolution: `blog` wins over `wiki`,
neither key prints a diagnostic and raises a bare `ValueError`. -/
def comment_find_article (resource content : Json) :
    List String × Except PyErr Json :=
  match pyContains "blog" content with
  | .error e => ([], .error e)
  | .ok true =>
    (match pyIndex content "blog" with
     | .ok a => ([], .ok a)
     | .error e => ([], .error e))
  | .ok false =>
    match pyContains "wiki" content with
    | .error e => ([], .error e)
    | .ok true =>
      (match pyIndex content "wiki" with
       | .ok a => ([], .ok a)
       | .error e => ([], .error e))
    | .ok false =>
      (["Can't find article: " ++ pyStr resource ++ "=" ++ pyStr content],
       .error (.valueError ""))

/-- `CommentBase.__init__`: reads the discriminating keys, the comment
resource, and resolves the nested article. -/
def commentInit (data : Json) : List String × Except PyErr (Json × Json × Json) :=
  match pyIndex data "resource_type" with
  | .error e => ([], .error e)
  | .ok r =>
    match pyIndex data "action_user" with
    | .error e => ([], .error e)
    | .ok user =>
      match (match r with
             | .str rs => pyIndex data rs
             | .arr _ => .error .typeError
             | .obj _ => .error .typeError
             | other => .error (.keyError (pyStr other))) with
      | .error e => ([], .error e)
      | .ok content =>
        match comment_find_article r content with
        | (lg, .error e) => (lg, .error e)
        | (lg, .ok article) => (lg, .ok (content, article, user))

/-- `CommentBase._parse`: the article-author field, read from the article
rather than the comment. -/
def comment_parse (article : Json) : Except PyErr (List MsgField) := do
  let author ← comment_get_author article
  if truthy author then
    pure [⟨.str "記事の作成者", author, true⟩]
  else
    pure []

/-- The capability values of a comment/reply variant: title from the
article, url and description from the comment resource itself. -/
def commentComps (k : DescKind) (data : Json) :
    List String × Except PyErr EmbedComps :=
  match commentInit data with
  | (lg, .error e) => (lg, .error e)
  | (lg, .ok (content, article, user)) =>
    (lg, do
      let u ← pyIndex user "account"
      let t ← orEmpty article "title"
      let url ← orEmpty content "url"
      let desc ← descOf k content
      let flds ← comment_parse article
      pure ⟨u, t, url, desc, flds⟩)

/-- The capability values of each kibela variant. -/
def comps : KVariant → Json → List String × Except PyErr EmbedComps
  | .createBlog, data => ([], articleComps .md data)
  | .updateBlog, data => ([], articleComps .diff data)
  | .deleteBlog, data => ([], articleComps .empty data)
  | .createWiki, data => ([], articleComps .md data)
  | .updateWiki, data => ([], articleComps .diff data)
  | .deleteWiki, data => ([], articleComps .empty data)
  | .createComment, data => commentComps .md data
  | .updateComment, data => commentComps .md data
  | .deleteComment, data => commentComps .empty data
  | .createReply, data => commentComps .md data
  | .updateReply, data => commentComps .md data
  | .deleteReply, data => commentComps .empty data

/-- Running one kibela variant through `ParseMixin.parse`. -/
def run (v : KVariant) (data : Json) : List String × Except PyErr Message :=
  ((comps v data).1,
   (comps v data).2.map (mkMsg "kibela webhook" (baseDesc v)))

/-- The result of `parse_kibela.create_post_body`: either the empty no-op
body returned for the connectivity test, or a real message. -/
inductive KOut where
  | noop : KOut
  | msg : Message → KOut
deriving Repr

/-- The tuple-equality check `(action_type, resource) == ("send", "test")`:
only equal strings compare equal to the literals. -/
def isSendTest (action resource : Json) : Bool :=
  match action, resource with
  | .str a, .str r => a = "send" && r = "test"
  | _, _ => false

/-- `parse_kibela.create_post_body`: reads `action` and `resource_type`,
short-circuits the `("send", "test")` connectivity ping to the empty body,
then dispatches through the nested table, logging and failing with
`ValueError` on unknown pairs. -/
def create_post_body (data : Json) : List String × Except PyErr KOut :=
  match pyIndex data "action" with
  | .error e => ([], .error e)
  | .ok action =>
    match pyIndex data "resource_type" with
    | .error e => ([], .error e)
    | .ok resource =>
      if isSendTest action resource then ([], .ok .noop)
      else
        match tableLookup resource action with
        | .error e => ([], .error e)
        | .ok none =>
          let msg := "Unknown type: action_type=" ++ pyStr action ++
            ", resource=" ++ pyStr resource
          ([msg], .error (.valueError msg))
        | .ok (some v) =>
          ((run v data).1, (run v data).2.map KOut.msg)

end Kibela

/-! ### General inversion lemmas for the `Except` plumbing -/

theorem exceptBindOk {ε α β : Type} {m : Except ε α} {f : α → Except ε β}
    {b : β} (h : (m >>= f) = .ok b) : ∃ a, m = .ok a ∧ f a = .ok b := by
  cases m with
  | error e =>
    simp only [Bind.bind, Except.bind] at h
    exact Except.noConfusion h
  | ok a =>
    refine ⟨a, rfl, ?_⟩
    simpa only [Bind.bind, Except.bind] using h

theorem exceptMapOk {ε α β : Type} {f : α → β} {m : Except ε α} {b : β}
    (h : Except.map f m = .ok b) : ∃ a, m = .ok a ∧ b = f a := by
  cases m with
  | error e =>
    simp only [Except.map] at h
    exact Except.noConfusion h
  | ok a =>
    refine ⟨a, rfl, ?_⟩
    simpa only [Except.map, Except.ok.injEq] using h.symm

theorem exceptPureOk {ε α : Type} {a b : α}
    (h : (pure a : Except ε α) = .ok b) : a = b := by
  simpa only [pure, Except.pure, Except.ok.injEq] using h

/-- `mkMsg` always produces exactly one embed. -/
theorem mkMsg_one_embed (u bd : String) (c : EmbedComps) :
    (mkMsg u bd c).embeds.length = 1 := rfl

/-- The `fields` key survives assembly only when the list is non-empty. -/
theorem mkMsg_fields_nonempty (u bd : String) (c : EmbedComps) (e : Embed)
    (fs : List MsgField) (he : e ∈ (mkMsg u bd c).embeds)
    (hf : e.fields = some fs) : fs ≠ [] := by
  simp only [mkMsg, List.mem_singleton] at he
  subst he
  simp only at hf
  rcases hc : c.fields.isEmpty with hv | hv
  · rw [hc] at hf
    simp only [if_neg Bool.false_ne_true] at hf
    cases hf
    intro hnil
    rw [hnil] at hc
    simp at hc
  · rw [hc] at hf
    simp at hf

/-- A key present in the payload map makes Python indexing succeed with
its value. -/
theorem pyIndex_of_find {data : Json} {k : String} {v : Json}
    (h : data.find? k = some v) : pyIndex data k = .ok v := by
  cases data with
  | obj kvs =>
    simp only [Json.find?] at h
    simp [pyIndex, h]
  | null => exact Option.noConfusion h
  | bool b => exact Option.noConfusion h
  | num n => exact Option.noConfusion h
  | str s => exact Option.noConfusion h
  | arr l => exact Option.noConfusion h

/-- C3: the description-truncation operation is idempotent at limit 500,
and is the identity on texts of length at most 500. -/
theorem c3_truncate_idempotent_at_500 (t : List Char) :
    truncTxt 500 truncMarker (truncTxt 500 truncMarker t) =
      truncTxt 500 truncMarker t ∧
    (t.length ≤ 500 → truncTxt 500 truncMarker t = t) := by
  constructor
  · by_cases h : 500 < t.length
    · have hlen : (t.take 500).length = 500 := by
        simp only [List.length_take]
        omega
      have hm : truncMarker.length = 9 := by decide
      have hout : (truncTxt 500 truncMarker t) = t.take 500 ++ truncMarker := by
        simp [truncTxt, h]
      rw [hout]
      have hlong : 500 < (t.take 500 ++ truncMarker).length := by
        simp only [List.length_append, hlen, hm]
        omega
      simp only [truncTxt, if_pos hlong]
      rw [List.take_left' hlen]
    · simp [truncTxt, h]
  · intro hle
    simp [truncTxt]
    omega

theorem c3_truncate_witness :
    truncTxt 500 truncMarker (truncTxt 500 truncMarker ['a', 'b']) =
      truncTxt 500 truncMarker ['a', 'b'] ∧
    truncTxt 500 truncMarker ['a', 'b'] = ['a', 'b'] :=
  ⟨(c3_truncate_idempotent_at_500 ['a', 'b']).1,
   (c3_truncate_idempotent_at_500 ['a', 'b']).2 (by decide)⟩

/-- C7: author normalization accepts an `authors` list (comma-joined
accounts), a single `author` object (its account), or neither key (empty
string) — in both the article and the comment parser. -/
theorem c7_author_normalization :
    Kibela.get_author (.obj [("authors",
        .arr [.obj [("account", .str "a")], .obj [("account", .str "b")]])]) =
      .ok (.str "a, b") ∧
    Kibela.get_author (.obj [("author", .obj [("account", .str "a")])]) =
      .ok (.str "a") ∧
    Kibela.get_author (.obj []) = .ok (.str "") ∧
    Kibela.comment_get_author (.obj [("authors",
        .arr [.obj [("account", .str "a")], .obj [("account", .str "b")]])]) =
      .ok (.str "a, b") ∧
    Kibela.comment_get_author (.obj [("author",
        .obj [("account", .str "a")])]) = .ok (.str "a") ∧
    Kibela.comment_get_author (.obj []) = .ok (.str "") :=
  ⟨rfl, rfl, rfl, rfl, rfl, rfl⟩

/-- C5: the `("send", "test")` connectivity ping short-circuits to the
empty no-op body — not a message, not an error, before any transformer. -/
theorem c5_send_test_noop (data : Json)
    (ha : data.find? "action" = some (.str "send"))
    (hr : data.find? "resource_type" = some (.str "test")) :
    Kibela.create_post_body data = ([], .ok .noop) := by
  unfold Kibela.create_post_body
  rw [pyIndex_of_find ha, pyIndex_of_find hr]
  rfl

theorem c5_send_test_noop_witness :
    Kibela.create_post_body
      (.obj [("action", .str "send"), ("resource_type", .str "test")]) =
      ([], .ok .noop) :=
  c5_send_test_noop _ rfl rfl

/-- C2: an integer `type` outside the backlog table, or a string pair
outside the kibela table (and not the `("send","test")` ping), makes
`create_post_body` log the offending discriminator and fail with the
`Unknown type` `ValueError` carrying it; no body is produced. -/
theorem c2_unknown_discriminator :
    (∀ (bu pfx : String) (data t : Json) (n : Int),
      data.find? "type" = some t → t = .num n →
      n ∉ ([1, 2, 3, 4, 14, 22, 23, 24] : List Int) →
      Backlog.create_post_body bu pfx data =
        (["Unknown type: " ++ pyStr t],
         .error (.valueError ("Unknown type: " ++ pyStr t)))) ∧
    (∀ (data : Json) (sa sr : String),
      data.find? "action" = some (.str sa) →
      data.find? "resource_type" = some (.str sr) →
      ¬(sa = "send" ∧ sr = "test") →
      Kibela.table sr sa = none →
      Kibela.create_post_body data =
        (["Unknown type: action_type=" ++ sa ++ ", resource=" ++ sr],
         .error (.valueError
           ("Unknown type: action_type=" ++ sa ++ ", resource=" ++ sr)))) := by
  constructor
  · intro bu pfx data t n hfind ht hn
    subst ht
    simp only [List.mem_cons, List.not_mem_nil, or_false, not_or] at hn
    obtain ⟨h1, h2, h3, h4, h14, h22, h23, h24⟩ := hn
    unfold Backlog.create_post_body
    rw [pyIndex_of_find hfind]
    simp [Backlog.tableLookup, Backlog.table, h1, h2, h3, h4, h14, h22, h23, h24]
  · intro data sa sr ha hr hst htab
    unfold Kibela.create_post_body
    rw [pyIndex_of_find ha, pyIndex_of_find hr]
    have hsend : Kibela.isSendTest (.str sa) (.str sr) = false := by
      simp only [Kibela.isSendTest, Bool.and_eq_false_iff]
      by_cases h : sa = "send"
      · right
        simp only [decide_eq_false_iff_not]
        intro h2
        exact hst ⟨h, h2⟩
      · left
        simp [h]
    simp [hsend, Kibela.tableLookup, htab, pyStr]

theorem c2_unknown_discriminator_witness :
    Backlog.create_post_body "B" "P" (.obj [("type", .num 99)]) =
      (["Unknown type: 99"], .error (.valueError "Unknown type: 99")) ∧
    Kibela.create_post_body
      (.obj [("action", .str "destroy"), ("resource_type", .str "blog")]) =
      (["Unknown type: action_type=destroy, resource=blog"],
       .error (.valueError "Unknown type: action_type=destroy, resource=blog")) :=
  ⟨c2_unknown_discriminator.1 "B" "P" (.obj [("type", .num 99)]) (.num 99) 99
     rfl rfl (by decide),
   c2_unknown_discriminator.2
     (.obj [("action", .str "destroy"), ("resource_type", .str "blog")])
     "destroy" "blog" rfl rfl (by decide) rfl⟩

/-- Any message a backlog variant produces has exactly one embed. -/
theorem backlogRunOneEmbed {bu pfx : String} {v : Backlog.BVariant}
    {data : Json} {out : Message}
    (h : (Backlog.run bu pfx v data).2 = .ok out) :
    out.embeds.length = 1 := by
  simp only [Backlog.run] at h
  obtain ⟨a, _, hout⟩ := exceptMapOk h
  rw [hout]
  exact mkMsg_one_embed _ _ _

/-- Any message a kibela variant produces has exactly one embed. -/
theorem kibelaRunOneEmbed {v : Kibela.KVariant} {data : Json}
    {out : Message}
    (h : (Kibela.run v data).2 = .ok out) :
    out.embeds.length = 1 := by
  simp only [Kibela.run] at h
  obtain ⟨a, _, hout⟩ := exceptMapOk h
  rw [hout]
  exact mkMsg_one_embed _ _ _

/-- C4: every message either dispatcher successfully returns carries
exactly one embed — never zero, never more than one. -/
theorem c4_exactly_one_embed :
    (∀ (bu pfx : String) (data : Json) (lg : List String) (out : Message),
      Backlog.create_post_body bu pfx data = (lg, .ok out) →
      out.embeds.length = 1) ∧
    (∀ (data : Json) (lg : List String) (m : Message),
      Kibela.create_post_body data = (lg, .ok (.msg m)) →
      m.embeds.length = 1) := by
  constructor
  · intro bu pfx data lg out h
    unfold Backlog.create_post_body at h
    split at h
    · simp at h
    · split at h
      · simp at h
      · simp at h
      · exact backlogRunOneEmbed (congrArg Prod.snd h)
  · intro data lg m h
    unfold Kibela.create_post_body at h
    split at h
    · simp at h
    · split at h
      · simp at h
      · split at h
        · simp at h
        · split at h
          · simp at h
          · simp at h
          · simp only [Prod.mk.injEq] at h
            obtain ⟨a, ha, hmm⟩ := exceptMapOk h.2
            cases hmm
            exact kibelaRunOneEmbed ha

/-- A concrete delete-issue payload exercising the backlog pipeline. -/
def c4BacklogPayload : Json :=
  .obj [("type", .num 4), ("content", .obj [("key_id", .num 7)]),
    ("createdUser", .obj [])]

/-- The message the backlog pipeline produces on `c4BacklogPayload`. -/
def c4BacklogMsg : Message :=
  { username := "backlog webhook", content := "課題を削除しました",
    embeds := [{ author := .str "名前なし", title := .str "P-7",
                 url := .str "B/view/P-7", description := .str "",
                 fields := none }] }

/-- A concrete wiki-delete payload exercising the kibela pipeline. -/
def c4KibelaPayload : Json :=
  .obj [("action", .str "delete"), ("resource_type", .str "wiki"),
    ("action_user", .obj [("account", .str "u")]),
    ("wiki", .obj [("title", .str "W"), ("url", .str "WU")])]

/-- The message the kibela pipeline produces on `c4KibelaPayload`. -/
def c4KibelaMsg : Message :=
  { username := "kibela webhook", content := "記事が削除されました",
    embeds := [{ author := .str "u", title := .str "W", url := .str "WU",
                 description := .str "", fields := none }] }

theorem c4_exactly_one_embed_witness :
    c4BacklogMsg.embeds.length = 1 ∧ c4KibelaMsg.embeds.length = 1 :=
  ⟨c4_exactly_one_embed.1 "B" "P" c4BacklogPayload [] c4BacklogMsg rfl,
   c4_exactly_one_embed.2 c4KibelaPayload [] c4KibelaMsg rfl⟩

/-- The exact issue-tracker payload of the end-to-end scenario in the
spec, which has `content.id` but no `content.key_id`. -/
def c6ClaimPayload : Json :=
  .obj [
    ("type", .num 1),
    ("content", .obj [
      ("summary", .str "Bug"), ("id", .num 42),
      ("issueType", .obj [("name", .str "Bug")]),
      ("priority", .obj [("name", .str "High")]),
      ("assignee", .null), ("milestone", .arr []), ("versions", .arr []),
      ("dueDate", .null)]),
    ("createdUser", .obj [("name", .str "alice")])]

/-- The scenario payload with the `key_id` the code requires for the
issue view URL. -/
def c6AmendedPayload : Json :=
  .obj [
    ("type", .num 1),
    ("content", .obj [
      ("summary", .str "Bug"), ("id", .num 42), ("key_id", .num 42),
      ("issueType", .obj [("name", .str "Bug")]),
      ("priority", .obj [("name", .str "High")]),
      ("assignee", .null), ("milestone", .arr []), ("versions", .arr []),
      ("dueDate", .null)]),
    ("createdUser", .obj [("name", .str "alice")])]

/-- C6 counterexample: on the scenario payload exactly as claimed, the
transformation does not succeed — `Issue.get_title_url` raises
`KeyError("key_id")` and no message is produced. -/
theorem c6_scenario_cex :
    Backlog.create_post_body "B" "P" c6ClaimPayload =
      ([], .error (.keyError "key_id")) := rfl

/-- C6 (amended): with `content.key_id` supplied, the type-1 payload
transforms into content `課題を作成しました`, title `Bug`, and exactly the
fields 種別→Bug, 担当者→未指定 (the non-empty assignee fallback) and
優先度→High, in that order. -/
theorem c6_scenario_amended (bu pfx : String) :
    Backlog.create_post_body bu pfx c6AmendedPayload =
      ([], .ok
        { username := "backlog webhook"
          content := "課題を作成しました"
          embeds := [{ author := .str "alice"
                       title := .str "Bug"
                       url := .str (bu ++ "/view/" ++ pfx ++ "-" ++ "42")
                       description := .str "説明なし"
                       fields := some [⟨.str "種別", .str "Bug", true⟩,
                         ⟨.str "担当者", .str "未指定", true⟩,
                         ⟨.str "優先度", .str "High", true⟩] }] }) := rfl

/-- Known backlog discriminators route `create_post_body` straight to the
variant run. -/
theorem backlog_dispatch {bu pfx : String} {data t : Json} {v : Backlog.BVariant}
    (ht : data.find? "type" = some t)
    (hv : Backlog.tableLookup t = .ok (some v)) :
    Backlog.create_post_body bu pfx data = Backlog.run bu pfx v data := by
  unfold Backlog.create_post_body
  rw [pyIndex_of_find ht]
  simp only [hv]

/-- A successful milestone transform uses exactly the url computed by
`Milestone.get_title_url`. -/
theorem milestoneCompsUrl {bu pfx : String} {data : Json} {c : EmbedComps}
    (h : (Backlog.comps.milestoneComps bu pfx data).2 = .ok c) :
    ∃ lg url, Backlog.milestone_get_title_url bu pfx data = .ok (lg, url) ∧
      c.url = .str url := by
  unfold Backlog.comps.milestoneComps at h
  rcases h1 : Backlog.get_username data with e | u
  all_goals rw [h1] at h
  · simp at h
  rcases h2 : Backlog.milestone_get_title data with e | t
  all_goals rw [h2] at h
  · simp at h
  rcases h3 : Backlog.milestone_get_title_url bu pfx data with e | lu
  all_goals rw [h3] at h
  · simp at h
  rcases lu with ⟨lg, url⟩
  rcases h4 : Backlog.milestone_get_description data with e | d
  all_goals rw [h4] at h
  · simp at h
  rcases h5 : Backlog.milestone_parse data with e | fl
  all_goals rw [h5] at h
  · simp at h
  simp only [Except.ok.injEq] at h
  exact ⟨lg, url, rfl, by rw [← h]⟩

/-- C9 (amended): for milestone payloads the embed url is the search deep
link exactly when Python `int()` of both `project.id` and `content.id`
yields a truthy (non-zero) value — not merely when both parse as
integers — and the project top URL otherwise. -/
theorem c9_milestone_url_amended :
    (∀ (bu pfx : String) (data proj cont pid mid : Json),
      pyGet data "project" (.obj []) = .ok proj →
      pyGet data "content" (.obj []) = .ok cont →
      pyGet proj "id" .null = .ok pid →
      pyGet cont "id" .null = .ok mid →
      ∃ lg, Backlog.milestone_get_title_url bu pfx data =
        .ok (lg,
          if truthyOptInt (intConv pid).1 && truthyOptInt (intConv mid).1 then
            Backlog.milestoneDeepLink bu pfx pid mid
          else
            Backlog.projectTopUrl bu pfx)) ∧
    (∀ (bu pfx : String) (data : Json) (lg : List String) (out : Message)
      (n : Int),
      data.find? "type" = some (.num n) →
      (n = 22 ∨ n = 23 ∨ n = 24) →
      Backlog.create_post_body bu pfx data = (lg, .ok out) →
      ∃ e lg2 url, out.embeds = [e] ∧
        Backlog.milestone_get_title_url bu pfx data = .ok (lg2, url) ∧
        e.url = .str url) := by
  constructor
  · intro bu pfx data proj cont pid mid hp hc hpid hmid
    unfold Backlog.milestone_get_title_url
    rcases hic : intConv pid with ⟨p1, l1⟩
    rcases hic2 : intConv mid with ⟨p2, l2⟩
    simp only [Bind.bind, Except.bind, hp, hc, hpid, hmid, hic, hic2]
    rcases ht1 : truthyOptInt p1 with _ | _
    · simp [ht1, pure, Except.pure]
    · rcases ht2 : truthyOptInt p2 with _ | _
      all_goals simp [ht1, ht2, pure, Except.pure]
  · intro bu pfx data lg out n hty hn h
    have hv : Backlog.tableLookup (.num n) =
        .ok (some (if n = 22 then Backlog.BVariant.createMilestone
          else if n = 23 then Backlog.BVariant.updateMilestone
          else Backlog.BVariant.deleteMilestone)) := by
      rcases hn with h22 | h23 | h24
      all_goals subst_vars
      all_goals rfl
    rw [backlog_dispatch hty hv] at h
    have hsnd := congrArg Prod.snd h
    simp only [Backlog.run] at hsnd
    obtain ⟨c, hc2, hout⟩ := exceptMapOk hsnd
    have hmc : (Backlog.comps.milestoneComps bu pfx data).2 = .ok c := by
      rcases hn with h22 | h23 | h24
      all_goals subst_vars
      all_goals simpa [Backlog.comps] using hc2
    obtain ⟨lg2, url, hu, hcu⟩ := milestoneCompsUrl hmc
    refine ⟨{ author := c.author, title := c.title, url := c.url,
              description := c.description,
              fields := if c.fields.isEmpty then none else some c.fields },
      lg2, url, ?_, hu, hcu⟩
    rw [hout]
    rfl

/-- A milestone payload whose `project.id` and `content.id` both parse as
integers, with `project.id = 0`. -/
def c9Payload : Json :=
  .obj [("type", .num 22), ("createdUser", .obj []),
    ("project", .obj [("id", .num 0)]),
    ("content", .obj [("id", .num 1)])]

/-- C9 counterexample: both ids parse as integers (`0` and `1`), yet the
embed url is the project top URL, not the search deep link. -/
theorem c9_milestone_url_cex :
    Backlog.create_post_body "B" "P" c9Payload =
      ([], .ok { username := "backlog webhook"
                 content := "マイルストーンを作成しました"
                 embeds := [{ author := .str "名前なし"
                              title := .str "名称無し"
                              url := .str "B/projects/P"
                              description := .str "説明なし"
                              fields := none }] }) ∧
    (intConv (.num 0)).1 = some 0 ∧
    (intConv (.num 1)).1 = some 1 ∧
    "B/projects/P" ≠ Backlog.milestoneDeepLink "B" "P" (.num 0) (.num 1) :=
  ⟨rfl, rfl, rfl, by decide⟩

theorem c9_milestone_url_witness :
    (∃ lg, Backlog.milestone_get_title_url "B" "P"
        (.obj [("project", .obj [("id", .num 5)]),
               ("content", .obj [("id", .num 6)])]) =
      .ok (lg,
        if truthyOptInt (intConv (.num 5)).1 &&
            truthyOptInt (intConv (.num 6)).1 then
          Backlog.milestoneDeepLink "B" "P" (.num 5) (.num 6)
        else
          Backlog.projectTopUrl "B" "P")) ∧
    (∃ e lg2 url,
      ({ username := "backlog webhook"
         content := "マイルストーンを作成しました"
         embeds := [{ author := .str "名前なし"
                      title := .str "名称無し"
                      url := .str "B/projects/P"
                      description := .str "説明なし"
                      fields := none }] } : Message).embeds = [e] ∧
      Backlog.milestone_get_title_url "B" "P" c9Payload = .ok (lg2, url) ∧
      e.url = .str url) :=
  ⟨c9_milestone_url_amended.1 "B" "P"
     (.obj [("project", .obj [("id", .num 5)]),
            ("content", .obj [("id", .num 6)])])
     (.obj [("id", .num 5)]) (.obj [("id", .num 6)]) (.num 5) (.num 6)
     rfl rfl rfl rfl,
   c9_milestone_url_amended.2 "B" "P" c9Payload [] _ 22 rfl (Or.inl rfl) rfl⟩

/-- A comment resource with neither `blog` nor `wiki` key makes
`CommentBase.__init__` print the diagnostic and raise a bare
`ValueError`. -/
theorem comment_find_article_neither {r : Json} {kvs : List (String × Json)}
    (hb : jlookup kvs "blog" = none) (hw : jlookup kvs "wiki" = none) :
    Kibela.comment_find_article r (.obj kvs) =
      (["Can't find article: " ++ pyStr r ++ "=" ++ pyStr (.obj kvs)],
       .error (.valueError "")) := by
  unfold Kibela.comment_find_article
  simp [pyContains, hb, hw]

/-- Known kibela discriminator pairs route `create_post_body` straight to
the variant run. -/
theorem kibela_dispatch {data : Json} {a r : Json} {v : Kibela.KVariant}
    (ha : data.find? "action" = some a)
    (hr : data.find? "resource_type" = some r)
    (hst : Kibela.isSendTest a r = false)
    (htab : Kibela.tableLookup r a = .ok (some v)) :
    Kibela.create_post_body data =
      ((Kibela.run v data).1, (Kibela.run v data).2.map Kibela.KOut.msg) := by
  unfold Kibela.create_post_body
  rw [pyIndex_of_find ha, pyIndex_of_find hr]
  simp only [hst, Bool.false_eq_true, if_false, htab]

/-- C10: comment-article resolution is ordered and total — a `blog` key
wins (even over a present `wiki` key), otherwise a `wiki` key is used,
and a comment resource with neither key makes the whole transformation
fail with the bare `ValueError` before any output is produced. -/
theorem c10_comment_article_resolution :
    (∀ (r content a : Json), content.find? "blog" = some a →
      Kibela.comment_find_article r content = ([], .ok a)) ∧
    (∀ (r content w : Json), content.find? "blog" = none →
      content.find? "wiki" = some w →
      Kibela.comment_find_article r content = ([], .ok w)) ∧
    (∀ (r : Json) (kvs : List (String × Json)),
      jlookup kvs "blog" = none → jlookup kvs "wiki" = none →
      (Kibela.comment_find_article r (.obj kvs)).2 =
        .error (.valueError "")) ∧
    (∀ (data user : Json) (rs act : String) (kvs : List (String × Json)),
      (rs = "comment" ∨ rs = "comment_reply") →
      (act = "create" ∨ act = "update" ∨ act = "delete") →
      data.find? "action" = some (.str act) →
      data.find? "resource_type" = some (.str rs) →
      data.find? "action_user" = some user →
      data.find? rs = some (.obj kvs) →
      jlookup kvs "blog" = none → jlookup kvs "wiki" = none →
      (Kibela.create_post_body data).2 = .error (.valueError "")) := by
  refine ⟨?_, ?_, ?_, ?_⟩
  · intro r content a h
    cases content with
    | obj kvs =>
      simp only [Json.find?] at h
      unfold Kibela.comment_find_article
      simp [pyContains, h, pyIndex]
    | null => exact Option.noConfusion h
    | bool b => exact Option.noConfusion h
    | num n => exact Option.noConfusion h
    | str s => exact Option.noConfusion h
    | arr l => exact Option.noConfusion h
  · intro r content w hb hw
    cases content with
    | obj kvs =>
      simp only [Json.find?] at hb hw
      unfold Kibela.comment_find_article
      simp [pyContains, hb, hw, pyIndex]
    | null => exact Option.noConfusion hw
    | bool b => exact Option.noConfusion hw
    | num n => exact Option.noConfusion hw
    | str s => exact Option.noConfusion hw
    | arr l => exact Option.noConfusion hw
  · intro r kvs hb hw
    rw [comment_find_article_neither hb hw]
  · intro data user rs act kvs hrs hact ha hr hu hres hb hw
    have hinit : Kibela.commentInit data =
        (["Can't find article: " ++ rs ++ "=" ++ pyStr (.obj kvs)],
         .error (.valueError "")) := by
      unfold Kibela.commentInit
      rw [pyIndex_of_find hr, pyIndex_of_find hu]
      simp only
      rw [pyIndex_of_find hres]
      simp only
      rw [comment_find_article_neither hb hw]
      simp [pyStr]
    have hcc : ∀ k, (Kibela.commentComps k data).2 = .error (.valueError "") := by
      intro k
      unfold Kibela.commentComps
      rw [hinit]
    rcases hrs with h1 | h1
    all_goals rcases hact with h2 | h2 | h2
    all_goals subst_vars
    · rw [kibela_dispatch ha hr rfl rfl]
      simp only [Kibela.run, Kibela.comps]
      rw [hcc Kibela.DescKind.md]
      rfl
    · rw [kibela_dispatch ha hr rfl rfl]
      simp only [Kibela.run, Kibela.comps]
      rw [hcc Kibela.DescKind.md]
      rfl
    · rw [kibela_dispatch ha hr rfl rfl]
      simp only [Kibela.run, Kibela.comps]
      rw [hcc Kibela.DescKind.empty]
      rfl
    · rw [kibela_dispatch ha hr rfl rfl]
      simp only [Kibela.run, Kibela.comps]
      rw [hcc Kibela.DescKind.md]
      rfl
    · rw [kibela_dispatch ha hr rfl rfl]
      simp only [Kibela.run, Kibela.comps]
      rw [hcc Kibela.DescKind.md]
      rfl
    · rw [kibela_dispatch ha hr rfl rfl]
      simp only [Kibela.run, Kibela.comps]
      rw [hcc Kibela.DescKind.empty]
      rfl

/-- The comment payload used to witness C10, whose comment resource holds
neither a `blog` nor a `wiki` article. -/
def c10Payload : Json :=
  .obj [
    ("action", .str "create"), ("resource_type", .str "comment"),
    ("action_user", .obj [("account", .str "yume")]),
    ("comment", .obj [("url", .str "CU"), ("content_md", .str "cm")])]

theorem c10_comment_article_resolution_witness :
    Kibela.comment_find_article (.str "comment")
        (.obj [("blog", .num 1), ("wiki", .num 2)]) = ([], .ok (.num 1)) ∧
    Kibela.comment_find_article (.str "comment")
        (.obj [("wiki", .num 2)]) = ([], .ok (.num 2)) ∧
    (Kibela.comment_find_article (.str "comment") (.obj [])).2 =
      .error (.valueError "") ∧
    (Kibela.create_post_body c10Payload).2 = .error (.valueError "") :=
  ⟨c10_comment_article_resolution.1 (.str "comment")
     (.obj [("blog", .num 1), ("wiki", .num 2)]) (.num 1) rfl,
   c10_comment_article_resolution.2.1 (.str "comment")
     (.obj [("wiki", .num 2)]) (.num 2) rfl rfl,
   c10_comment_article_resolution.2.2.1 (.str "comment") [] rfl rfl,
   c10_comment_article_resolution.2.2.2 c10Payload
     (.obj [("account", .str "yume")]) "comment" "create"
     [("url", .str "CU"), ("content_md", .str "cm")]
     (Or.inl rfl) (Or.inl rfl) rfl rfl rfl rfl rfl rfl⟩

/-- Successful Python indexing exposes the key in the payload map. -/
theorem find_of_pyIndex {data : Json} {k : String} {v : Json}
    (h : pyIndex data k = .ok v) : data.find? k = some v := by
  cases data with
  | obj kvs =>
    simp only [pyIndex] at h
    cases hj : jlookup kvs k with
    | some w =>
      rw [hj] at h
      simp only [Except.ok.injEq] at h
      simp [Json.find?, hj, h]
    | none =>
      rw [hj] at h
      exact Except.noConfusion h
  | null => exact Except.noConfusion h
  | bool b => exact Except.noConfusion h
  | num n => exact Except.noConfusion h
  | str s => exact Except.noConfusion h
  | arr l => exact Except.noConfusion h

/-- Only the integer code 14 dispatches to the multi-issue-update
variant. -/
theorem tableLookup_multiUpdate {t : Json}
    (h : Backlog.tableLookup t = .ok (some .multiUpdate)) : t = .num 14 := by
  cases t with
  | num n =>
    simp only [Backlog.tableLookup, Except.ok.injEq] at h
    unfold Backlog.table at h
    split_ifs at h <;> simp_all
  | bool b =>
    simp only [Backlog.tableLookup, Except.ok.injEq] at h
    cases b <;> simp_all [Backlog.table]
  | null => simp [Backlog.tableLookup] at h
  | str s => simp [Backlog.tableLookup] at h
  | arr l => simp [Backlog.tableLookup] at h
  | obj kvs => simp [Backlog.tableLookup] at h

/-- `Issue._parse` filters its candidates by value truthiness. -/
theorem issue_parse_truthy {data : Json} {fl : List MsgField}
    (h : Backlog.issue_parse data = .ok fl) :
    ∀ f ∈ fl, truthy f.value := by
  unfold Backlog.issue_parse at h
  obtain ⟨fv, _, hp⟩ := exceptBindOk h
  have := exceptPureOk hp
  subst this
  intro f hf
  exact (List.mem_filter.mp hf).2

/-- `Milestone._parse` filters its candidates by value truthiness. -/
theorem milestone_parse_truthy {data : Json} {fl : List MsgField}
    (h : Backlog.milestone_parse data = .ok fl) :
    ∀ f ∈ fl, truthy f.value := by
  unfold Backlog.milestone_parse at h
  obtain ⟨sd, _, h2⟩ := exceptBindOk h
  obtain ⟨rd, _, hp⟩ := exceptBindOk h2
  have := exceptPureOk hp
  subst this
  intro f hf
  exact (List.mem_filter.mp hf).2

/-- `Blog._parse` / `Wiki._parse` only emit a truthy author field. -/
theorem article_parse_truthy {d : Json} {fl : List MsgField}
    (h : Kibela.article_parse d = .ok fl) :
    ∀ f ∈ fl, truthy f.value := by
  unfold Kibela.article_parse at h
  obtain ⟨a, _, h2⟩ := exceptBindOk h
  rcases hta : truthy a with _ | _
  · rw [hta] at h2
    simp only [Bool.false_eq_true, if_false] at h2
    have := exceptPureOk h2
    subst this
    intro f hf
    exact absurd hf (List.not_mem_nil f)
  · rw [hta] at h2
    simp only [if_true] at h2
    have := exceptPureOk h2
    subst this
    intro f hf
    rcases List.mem_singleton.mp hf with rfl
    exact hta

/-- `CommentBase._parse` only emits a truthy author field. -/
theorem comment_parse_truthy {d : Json} {fl : List MsgField}
    (h : Kibela.comment_parse d = .ok fl) :
    ∀ f ∈ fl, truthy f.value := by
  unfold Kibela.comment_parse at h
  obtain ⟨a, _, h2⟩ := exceptBindOk h
  rcases hta : truthy a with _ | _
  · rw [hta] at h2
    simp only [Bool.false_eq_true, if_false] at h2
    have := exceptPureOk h2
    subst this
    intro f hf
    exact absurd hf (List.not_mem_nil f)
  · rw [hta] at h2
    simp only [if_true] at h2
    have := exceptPureOk h2
    subst this
    intro f hf
    rcases List.mem_singleton.mp hf with rfl
    exact hta

/-- A successful milestone transform takes its fields from
`Milestone._parse`. -/
theorem milestoneCompsFlds {bu pfx : String} {data : Json} {c : EmbedComps}
    (h : (Backlog.comps.milestoneComps bu pfx data).2 = .ok c) :
    ∃ fl, Backlog.milestone_parse data = .ok fl ∧ c.fields = fl := by
  unfold Backlog.comps.milestoneComps at h
  rcases h1 : Backlog.get_username data with e | u
  all_goals rw [h1] at h
  · simp at h
  rcases h2 : Backlog.milestone_get_title data with e | t
  all_goals rw [h2] at h
  · simp at h
  rcases h3 : Backlog.milestone_get_title_url bu pfx data with e | lu
  all_goals rw [h3] at h
  · simp at h
  rcases lu with ⟨lg, url⟩
  rcases h4 : Backlog.milestone_get_description data with e | d
  all_goals rw [h4] at h
  · simp at h
  rcases h5 : Backlog.milestone_parse data with e | fl
  all_goals rw [h5] at h
  · simp at h
  simp only [Except.ok.injEq] at h
  exact ⟨fl, rfl, by rw [← h]⟩

/-- Every backlog variant except multi-issue-update produces only
truthy-valued fields. -/
theorem backlogCompsTruthy {bu pfx : String} {v : Backlog.BVariant}
    {data : Json} {c : EmbedComps}
    (hv : v ≠ Backlog.BVariant.multiUpdate)
    (h : (Backlog.comps bu pfx v data).2 = .ok c) :
    ∀ f ∈ c.fields, truthy f.value := by
  cases v with
  | multiUpdate => exact absurd rfl hv
  | createIssue =>
    simp only [Backlog.comps] at h
    obtain ⟨u, _, h⟩ := exceptBindOk h
    obtain ⟨t, _, h⟩ := exceptBindOk h
    obtain ⟨url, _, h⟩ := exceptBindOk h
    obtain ⟨desc, _, h⟩ := exceptBindOk h
    obtain ⟨flds, hflds, h⟩ := exceptBindOk h
    have := exceptPureOk h
    subst this
    exact issue_parse_truthy hflds
  | updateIssue =>
    simp only [Backlog.comps] at h
    obtain ⟨u, _, h⟩ := exceptBindOk h
    obtain ⟨t, _, h⟩ := exceptBindOk h
    obtain ⟨url, _, h⟩ := exceptBindOk h
    obtain ⟨desc, _, h⟩ := exceptBindOk h
    obtain ⟨flds, hflds, h⟩ := exceptBindOk h
    have := exceptPureOk h
    subst this
    exact issue_parse_truthy hflds
  | comment =>
    simp only [Backlog.comps] at h
    obtain ⟨u, _, h⟩ := exceptBindOk h
    obtain ⟨t, _, h⟩ := exceptBindOk h
    obtain ⟨url, _, h⟩ := exceptBindOk h
    obtain ⟨desc, _, h⟩ := exceptBindOk h
    obtain ⟨flds, hflds, h⟩ := exceptBindOk h
    have := exceptPureOk h
    subst this
    exact issue_parse_truthy hflds
  | deleteIssue =>
    simp only [Backlog.comps] at h
    obtain ⟨u, _, h⟩ := exceptBindOk h
    obtain ⟨t, _, h⟩ := exceptBindOk h
    obtain ⟨url, _, h⟩ := exceptBindOk h
    have := exceptPureOk h
    subst this
    intro f hf
    exact absurd hf (List.not_mem_nil f)
  | createMilestone =>
    obtain ⟨fl, hfl, hc⟩ := milestoneCompsFlds h
    rw [hc]
    exact milestone_parse_truthy hfl
  | updateMilestone =>
    obtain ⟨fl, hfl, hc⟩ := milestoneCompsFlds h
    rw [hc]
    exact milestone_parse_truthy hfl
  | deleteMilestone =>
    obtain ⟨fl, hfl, hc⟩ := milestoneCompsFlds h
    rw [hc]
    exact milestone_parse_truthy hfl

/-- Blog/wiki variants produce only truthy-valued fields. -/
theorem articleCompsTruthy {k : Kibela.DescKind} {data : Json} {c : EmbedComps}
    (h : Kibela.articleComps k data = .ok c) :
    ∀ f ∈ c.fields, truthy f.value := by
  unfold Kibela.articleComps at h
  obtain ⟨du, _, h⟩ := exceptBindOk h
  rcases du with ⟨d, user⟩
  obtain ⟨u, _, h⟩ := exceptBindOk h
  obtain ⟨t, _, h⟩ := exceptBindOk h
  obtain ⟨url, _, h⟩ := exceptBindOk h
  obtain ⟨desc, _, h⟩ := exceptBindOk h
  obtain ⟨flds, hflds, h⟩ := exceptBindOk h
  have := exceptPureOk h
  subst this
  exact article_parse_truthy hflds

/-- Comment variants produce only truthy-valued fields. -/
theorem commentCompsTruthy {k : Kibela.DescKind} {data : Json} {c : EmbedComps}
    (h : (Kibela.commentComps k data).2 = .ok c) :
    ∀ f ∈ c.fields, truthy f.value := by
  unfold Kibela.commentComps at h
  rcases hci : Kibela.commentInit data with ⟨lg2, r⟩
  rw [hci] at h
  rcases r with e | cau
  · simp at h
  rcases cau with ⟨content, article, user⟩
  simp only at h
  obtain ⟨u, _, h⟩ := exceptBindOk h
  obtain ⟨t, _, h⟩ := exceptBindOk h
  obtain ⟨url, _, h⟩ := exceptBindOk h
  obtain ⟨desc, _, h⟩ := exceptBindOk h
  obtain ⟨flds, hflds, h⟩ := exceptBindOk h
  have := exceptPureOk h
  subst this
  exact comment_parse_truthy hflds

theorem kibelaCompsTruthy {v : Kibela.KVariant} {data : Json} {c : EmbedComps}
    (h : (Kibela.comps v data).2 = .ok c) :
    ∀ f ∈ c.fields, truthy f.value := by
  cases v with
  | createBlog => exact articleCompsTruthy h
  | updateBlog => exact articleCompsTruthy h
  | deleteBlog => exact articleCompsTruthy h
  | createWiki => exact articleCompsTruthy h
  | updateWiki => exact articleCompsTruthy h
  | deleteWiki => exact articleCompsTruthy h
  | createComment => exact commentCompsTruthy h
  | updateComment => exact commentCompsTruthy h
  | deleteComment => exact commentCompsTruthy h
  | createReply => exact commentCompsTruthy h
  | updateReply => exact commentCompsTruthy h
  | deleteReply => exact commentCompsTruthy h

/-- C1 (amended): the `fields` key is omitted exactly when the filtered
list is empty (a present `fields` list is never empty), and every emitted
field value is truthy — except in the multi-issue-update variant (backlog
type 14), whose change fields take `new_value` verbatim and may be
empty. -/
theorem c1_field_filtering_amended :
    (∀ (bu pfx : String) (data : Json) (lg : List String) (out : Message),
      Backlog.create_post_body bu pfx data = (lg, .ok out) →
      (∀ e ∈ out.embeds, ∀ fs, e.fields = some fs → fs ≠ []) ∧
      (data.find? "type" ≠ some (.num 14) →
        ∀ e ∈ out.embeds, ∀ fs, e.fields = some fs →
          ∀ f ∈ fs, truthy f.value)) ∧
    (∀ (data : Json) (lg : List String) (m : Message),
      Kibela.create_post_body data = (lg, .ok (.msg m)) →
      (∀ e ∈ m.embeds, ∀ fs, e.fields = some fs → fs ≠ []) ∧
      (∀ e ∈ m.embeds, ∀ fs, e.fields = some fs →
        ∀ f ∈ fs, truthy f.value)) := by
  constructor
  · intro bu pfx data lg out h
    unfold Backlog.create_post_body at h
    split at h
    · simp at h
    case _ t heq1 =>
      split at h
      · simp at h
      · simp at h
      case _ v heq2 =>
        have hsnd := congrArg Prod.snd h
        simp only [Backlog.run] at hsnd
        obtain ⟨c, hc, hout⟩ := exceptMapOk hsnd
        subst hout
        constructor
        · intro e he fs hf
          exact mkMsg_fields_nonempty _ _ _ e fs he hf
        · intro h14 e he fs hf f hfm
          have hv : v ≠ Backlog.BVariant.multiUpdate := by
            intro hveq
            subst hveq
            have ht14 := tableLookup_multiUpdate heq2
            subst ht14
            exact h14 (find_of_pyIndex heq1)
          have hall := backlogCompsTruthy hv hc
          simp only [mkMsg, List.mem_singleton] at he
          subst he
          simp only at hf
          rcases hemp : c.fields.isEmpty with _ | _
          · rw [hemp] at hf
            simp only [Bool.false_eq_true, if_false, Option.some.injEq] at hf
            subst hf
            exact hall f hfm
          · rw [hemp] at hf
            simp only [if_true] at hf
            exact Option.noConfusion hf
  · intro data lg m h
    unfold Kibela.create_post_body at h
    split at h
    · simp at h
    split at h
    · simp at h
    split at h
    · simp at h
    split at h
    · simp at h
    · simp at h
    case _ v heq2 =>
      simp only [Prod.mk.injEq] at h
      obtain ⟨a, ha, hmm⟩ := exceptMapOk h.2
      cases hmm
      simp only [Kibela.run] at ha
      obtain ⟨c, hc, hout⟩ := exceptMapOk ha
      subst hout
      constructor
      · intro e he fs hf
        exact mkMsg_fields_nonempty _ _ _ e fs he hf
      · intro e he fs hf f hfm
        have hall := kibelaCompsTruthy hc
        simp only [mkMsg, List.mem_singleton] at he
        subst he
        simp only at hf
        rcases hemp : c.fields.isEmpty with _ | _
        · rw [hemp] at hf
          simp only [Bool.false_eq_true, if_false, Option.some.injEq] at hf
          subst hf
          exact hall f hfm
        · rw [hemp] at hf
          simp only [if_true] at hf
          exact Option.noConfusion hf


def c1BacklogPayload : Json :=
  .obj [("type", .num 2),
    ("content", .obj [("summary", .str "S"), ("key_id", .num 5),
      ("issueType", .obj [("name", .str "T")]),
      ("milestone", .arr []), ("versions", .arr [])]),
    ("createdUser", .obj [])]

def c1BacklogMsg : Message :=
  { username := "backlog webhook", content := "課題を更新しました",
    embeds := [{ author := .str "名前なし", title := .str "S",
                 url := .str "B/view/P-5", description := .str "説明なし",
                 fields := some [⟨.str "種別", .str "T", true⟩,
                   ⟨.str "担当者", .str "未指定", true⟩] }] }

def c1KibelaPayload : Json :=
  .obj [("action", .str "create"), ("resource_type", .str "blog"),
    ("action_user", .obj [("account", .str "yume")]),
    ("blog", .obj [("title", .str "T"), ("url", .str "U"),
      ("content_md", .str "hello"),
      ("author", .obj [("account", .str "au")])])]

def c1KibelaMsg : Message :=
  { username := "kibela webhook", content := "記事が作成されました",
    embeds := [{ author := .str "yume", title := .str "T",
                 url := .str "U", description := .str "hello",
                 fields := some [⟨.str "記事の作成者", .str "au", true⟩] }] }

theorem c1_field_filtering_witness :
    ([⟨.str "種別", .str "T", true⟩,
      ⟨.str "担当者", .str "未指定", true⟩] : List MsgField) ≠ [] ∧
    truthy (Json.str "T") = true ∧
    ([⟨.str "記事の作成者", .str "au", true⟩] : List MsgField) ≠ [] ∧
    truthy (Json.str "au") = true :=
  ⟨(c1_field_filtering_amended.1 "B" "P" c1BacklogPayload [] c1BacklogMsg
      rfl).1 _ (List.Mem.head _) _ rfl,
   (c1_field_filtering_amended.1 "B" "P" c1BacklogPayload [] c1BacklogMsg
      rfl).2 (by simp [c1BacklogPayload, Json.find?, jlookup])
      _ (List.Mem.head _) _ rfl _ (List.Mem.head _),
   (c1_field_filtering_amended.2 c1KibelaPayload [] c1KibelaMsg rfl).1
      _ (List.Mem.head _) _ rfl,
   (c1_field_filtering_amended.2 c1KibelaPayload [] c1KibelaMsg rfl).2
      _ (List.Mem.head _) _ rfl _ (List.Mem.head _)⟩

/-- C1 counterexample payload: a multi-issue-update whose single change
carries an empty `new_value`. -/
def c1CexPayload : Json :=
  .obj [("type", .num 14), ("createdUser", .obj []),
    ("content", .obj [("link", .arr []),
      ("changes", .arr [.obj [("field", .str "status"),
        ("new_value", .str "")]])])]

/-- C1 counterexample: a type-14 payload with a change whose `new_value`
is the empty string yields an output field with an empty (falsy) value,
refuting the unrestricted claim. -/
theorem c1_empty_field_cex :
    Backlog.create_post_body "B" "P" c1CexPayload =
      ([], .ok { username := "backlog webhook"
                 content := "課題を複数更新しました"
                 embeds := [{ author := .str "名前なし", title := .str ""
                              url := .str "B/projects/P"
                              description := .str "内容無し"
                              fields := some [⟨.str "status", .str "", true⟩] }] }) ∧
    truthy (.str "") = false :=
  ⟨rfl, rfl⟩

/-- Total lookup with default, the specification-side view of `.get`. -/
def Json.getD (j : Json) (k : String) (d : Json) : Json :=
  match j.find? k with
  | some v => v
  | none => d

/-- Specification side of C8, following the claim text: the markdown line
`[{project_prefix}-{issue_id} {issue_title}]({issue_url}-{issue_id})`
built from one entry of `content.link`. -/
def specEntryLine (bu pfx : String) (d : Json) : String :=
  "[" ++ pfx ++ "-" ++ pyStr (d.getD "key_id" .null) ++ " " ++
    pyStr (d.getD "title" .null) ++ "](" ++ bu ++ "/view/" ++ pfx ++ "-" ++
    pyStr (d.getD "key_id" .null) ++ ")"

/-- Specification side of C8: the newline-joined entry lines, defaulting
to `内容無し` when the list is empty. -/
def specMultiDesc (bu pfx : String) : List Json → String
  | [] => "内容無し"
  | l => String.intercalate "\n" (l.map (specEntryLine bu pfx))

/-- The step threading the captured comment through one linked item: a
truthy nested comment content overwrites the accumulator. -/
def commentStep (acc d : Json) : Json :=
  let c := (d.getD "comment" (.obj [])).getD "content" .null
  if truthy c then c else acc

/-- Specification side of C8: the captured comment — the last truthy
nested comment content wins (later overwrites earlier). -/
def specLastComment (links : List Json) : Json :=
  links.foldl commentStep .null

/-- Specification side of C8: truncation of the kept comment at 300
characters. -/
def specTrunc (limit : Nat) (j : Json) : Json :=
  match j with
  | .str s => .str (String.mk (truncTxt limit truncMarker s.data))
  | j => j

/-- Specification side of C8: one field per change entry, named by the raw
field key and valued by `new_value` with the `変更有` fallback. -/
def specChangeField (d : Json) : MsgField :=
  ⟨d.getD "field" .null, d.getD "new_value" (.str "変更有"), true⟩

/-- Specification side of C8: the optional truncated comment field
followed by the change fields. -/
def specMultiFields (links cs : List Json) : List MsgField :=
  (if truthy (specLastComment links) then
    [⟨.str "コメント", specTrunc 300 (specLastComment links), true⟩]
  else []) ++ cs.map specChangeField

/-- The fields list of an embed, empty when the key is absent. -/
def embedFields (e : Embed) : List MsgField :=
  match e.fields with
  | some l => l
  | none => []

/-- Successful `.get` returns the defaulted lookup. -/
theorem pyGet_ok {j : Json} {k : String} {d v : Json}
    (h : pyGet j k d = .ok v) : j.getD k d = v := by
  cases j with
  | obj kvs =>
    simp only [pyGet, Except.ok.injEq] at h
    simp only [Json.getD, Json.find?]
    exact h
  | null => exact Except.noConfusion h
  | bool b => exact Except.noConfusion h
  | num n => exact Except.noConfusion h
  | str s => exact Except.noConfusion h
  | arr l => exact Except.noConfusion h

/-- Successful indexing returns the defaulted lookup as well. -/
theorem pyIndex_getD {j : Json} {k : String} {v d : Json}
    (h : pyIndex j k = .ok v) : j.getD k d = v := by
  have := find_of_pyIndex h
  simp [Json.getD, this]

/-- The in-code truncation agrees with the specification-side truncation
whenever it succeeds. -/
theorem truncAt_spec {j v : Json} (h : truncAt 300 j = .ok v) :
    v = specTrunc 300 j := by
  cases j with
  | str s =>
    simp only [truncAt, pyLen, Bind.bind, Except.bind] at h
    by_cases hl : 300 < s.data.length
    · rw [if_pos hl] at h
      simp only [Except.ok.injEq] at h
      simp only [specTrunc]
      exact h.symm
    · rw [if_neg hl] at h
      simp only [Except.ok.injEq] at h
      simp only [specTrunc, truncTxt, if_neg hl]
      rw [← h]
  | arr l =>
    simp only [truncAt, pyLen, Bind.bind, Except.bind] at h
    by_cases hl : 300 < l.length
    · rw [if_pos hl] at h
      exact Except.noConfusion h
    · rw [if_neg hl] at h
      simp only [Except.ok.injEq] at h
      rw [← h]
      rfl
  | obj kvs =>
    simp only [truncAt, pyLen, Bind.bind, Except.bind] at h
    by_cases hl : 300 < kvs.length
    · rw [if_pos hl] at h
      exact Except.noConfusion h
    · rw [if_neg hl] at h
      simp only [Except.ok.injEq] at h
      rw [← h]
      rfl
  | null =>
    simp only [truncAt, pyLen, Bind.bind, Except.bind] at h
    exact Except.noConfusion h
  | bool b =>
    simp only [truncAt, pyLen, Bind.bind, Except.bind] at h
    exact Except.noConfusion h
  | num n =>
    simp only [truncAt, pyLen, Bind.bind, Except.bind] at h
    exact Except.noConfusion h

/-- The description loop produces exactly the specification lines and the
left fold of the comment-overwrite step. -/
theorem multiLoop_spec {bu pfx : String} :
    ∀ {links : List Json} {c0 : Json} {lines : List String} {cf : Json},
    Backlog.multiLoop bu pfx links c0 = .ok (lines, cf) →
    lines = links.map (specEntryLine bu pfx) ∧
      cf = links.foldl commentStep c0 := by
  intro links
  induction links with
  | nil =>
    intro c0 lines cf h
    simp only [Backlog.multiLoop, Except.ok.injEq, Prod.mk.injEq] at h
    simp [← h.1, ← h.2]
  | cons d rest ih =>
    intro c0 lines cf h
    simp only [Backlog.multiLoop] at h
    obtain ⟨issue_id, hii, h⟩ := exceptBindOk h
    obtain ⟨issue_title, hit, h⟩ := exceptBindOk h
    obtain ⟨c1, hc1, h⟩ := exceptBindOk h
    obtain ⟨c2, hc2, h⟩ := exceptBindOk h
    obtain ⟨lc, hlc, h⟩ := exceptBindOk h
    rcases lc with ⟨lines2, cf2⟩
    simp only [Except.ok.injEq, Prod.mk.injEq] at h
    obtain ⟨ih1, ih2⟩ := ih hlc
    constructor
    · rw [← h.1, ih1, List.map_cons]
      congr 1
      unfold specEntryLine
      rw [pyIndex_getD hii, pyIndex_getD hit]
    · rw [← h.2, ih2, List.foldl_cons]
      congr 1
      unfold commentStep
      rw [pyGet_ok hc1, pyGet_ok hc2]

/-- The changes loop produces exactly one specification field per entry. -/
theorem changesLoop_spec :
    ∀ {cs : List Json} {fs : List MsgField},
    Backlog.changesLoop cs = .ok fs → fs = cs.map specChangeField := by
  intro cs
  induction cs with
  | nil =>
    intro fs h
    simp only [Backlog.changesLoop, Except.ok.injEq] at h
    simp [← h]
  | cons d rest ih =>
    intro fs h
    simp only [Backlog.changesLoop] at h
    obtain ⟨name, hn, h⟩ := exceptBindOk h
    obtain ⟨value, hv, h⟩ := exceptBindOk h
    obtain ⟨fs2, hfs2, h⟩ := exceptBindOk h
    simp only [Except.ok.injEq] at h
    rw [← h, ih hfs2, List.map_cons]
    congr 1
    unfold specChangeField
    rw [pyIndex_getD hn, pyGet_ok hv]

/-- The joined accumulator never shrinks. -/
theorem intercalate_go_length (s : String) :
    ∀ (as : List String) (acc : String),
    acc.length ≤ (String.intercalate.go acc s as).length := by
  intro as
  induction as with
  | nil =>
    intro acc
    simp [String.intercalate.go]
  | cons a rest ih =>
    intro acc
    have h1 : acc.length ≤ (acc ++ s ++ a).length := by
      simp only [String.length_append]
      omega
    have h2 := ih (acc ++ s ++ a)
    calc acc.length ≤ (acc ++ s ++ a).length := h1
      _ ≤ _ := h2

/-- Joining the nonempty line list gives a truthy string. -/
theorem joined_lines_truthy (bu pfx : String) (d : Json) (rest : List Json) :
    truthy (.str (String.intercalate "\n"
      ((d :: rest).map (specEntryLine bu pfx)))) = true := by
  simp only [List.map_cons, String.intercalate]
  have h1 : 1 ≤ (specEntryLine bu pfx d).length := by
    unfold specEntryLine
    simp only [String.length_append]
    have : ("[" : String).length = 1 := rfl
    omega
  have h2 := intercalate_go_length "\n" (rest.map (specEntryLine bu pfx))
    (specEntryLine bu pfx d)
  have h3 : 1 ≤ (String.intercalate.go (specEntryLine bu pfx d) "\n"
      (rest.map (specEntryLine bu pfx))).length := le_trans h1 h2
  simp only [truthy, Bool.not_eq_eq_eq_not, Bool.not_true]
  rcases hd : (String.intercalate.go (specEntryLine bu pfx d) "\n"
      (rest.map (specEntryLine bu pfx))).data with _ | ⟨c, cs⟩
  · exfalso
    simp only [String.length, hd, List.length_nil] at h3
    omega
  · rfl

/-- `MultiUpdateIssue.get_description` computes the specification
description and the specification last-comment. -/
theorem multi_desc_spec {bu pfx : String} {data content : Json}
    {links : List Json} {desc comment : Json}
    (hc : data.find? "content" = some content)
    (hl : content.find? "link" = some (.arr links))
    (h : Backlog.multi_get_description bu pfx data = .ok (desc, comment)) :
    desc = .str (specMultiDesc bu pfx links) ∧
      comment = specLastComment links := by
  unfold Backlog.multi_get_description at h
  obtain ⟨c1, hc1, h⟩ := exceptBindOk h
  rw [pyIndex_of_find hc] at hc1
  cases Except.ok.inj hc1
  obtain ⟨lk, hlk, h⟩ := exceptBindOk h
  rw [pyIndex_of_find hl] at hlk
  cases Except.ok.inj hlk
  obtain ⟨items, hits, h⟩ := exceptBindOk h
  cases Except.ok.inj hits
  obtain ⟨lc, hlc, h⟩ := exceptBindOk h
  rcases lc with ⟨lines, cf⟩
  have hp := exceptPureOk h
  obtain ⟨hlines, hcf⟩ := multiLoop_spec hlc
  subst hlines
  subst hcf
  have hd : desc = .str
      (if truthy (.str (String.intercalate "\n"
          (links.map (specEntryLine bu pfx)))) = true then
        String.intercalate "\n" (links.map (specEntryLine bu pfx))
      else "内容無し") := by
    have := congrArg Prod.fst hp
    simpa using this.symm
  have hcm : comment = specLastComment links := by
    have := congrArg Prod.snd hp
    simpa [specLastComment] using this.symm
  refine ⟨?_, hcm⟩
  cases links with
  | nil =>
    simp only [List.map_nil] at hd
    rw [hd]
    rfl
  | cons d rest =>
    rw [hd, if_pos (joined_lines_truthy bu pfx d rest)]
    rfl

/-- `MultiUpdateIssue._parse` computes the specification fields. -/
theorem multi_parse_spec {data content : Json} {cs : List Json}
    {comment : Json} {fs : List MsgField}
    (hc : data.find? "content" = some content)
    (hch : content.find? "changes" = some (.arr cs))
    (h : Backlog.multi_parse data comment = .ok fs) :
    fs = (if truthy comment then
        [⟨.str "コメント", specTrunc 300 comment, true⟩]
      else []) ++ cs.map specChangeField := by
  unfold Backlog.multi_parse at h
  obtain ⟨cf, hcf, h⟩ := exceptBindOk h
  have hcfv : cf = (if truthy comment then
      [(⟨.str "コメント", specTrunc 300 comment, true⟩ : MsgField)]
    else []) := by
    rcases htc : truthy comment with _ | _
    · rw [htc] at hcf
      simp only [Bool.false_eq_true, if_false] at hcf ⊢
      exact (exceptPureOk hcf).symm
    · rw [htc] at hcf
      simp only [if_true] at hcf ⊢
      obtain ⟨tc, htr, hcf⟩ := exceptBindOk hcf
      rw [truncAt_spec htr] at hcf
      exact (exceptPureOk hcf).symm
  obtain ⟨c2, hc2, h⟩ := exceptBindOk h
  rw [pyIndex_of_find hc] at hc2
  cases Except.ok.inj hc2
  obtain ⟨ch, hch2, h⟩ := exceptBindOk h
  rw [pyIndex_of_find hch] at hch2
  cases Except.ok.inj hch2
  cases cs with
  | nil =>
    simp only [truthy, List.isEmpty_nil, Bool.not_true, Bool.false_eq_true,
      if_false] at h
    have := exceptPureOk h
    rw [← this, hcfv]
    simp
  | cons d rest =>
    simp only [truthy, List.isEmpty_cons, Bool.not_false, if_true] at h
    obtain ⟨items, hits, h⟩ := exceptBindOk h
    cases Except.ok.inj hits
    obtain ⟨chf, hchf, h⟩ := exceptBindOk h
    have := exceptPureOk h
    rw [← this, hcfv, changesLoop_spec hchf]

/-- Extracting the fields list back out of an assembled embed. -/
theorem embedFields_if (a t u2 d2 : Json) (l : List MsgField) :
    embedFields ⟨a, t, u2, d2, if l.isEmpty then none else some l⟩ = l := by
  rcases hl : l.isEmpty with _ | _
  · simp [embedFields, hl]
  · simp only [embedFields, hl, if_true]
    exact (List.isEmpty_iff.mp hl).symm

/-- C8: for multi-issue-update payloads, the description is the
newline-joined per-issue markdown line list (default `内容無し` when the
link list is empty), the kept comment is the last truthy one (later
overwrites earlier), and the fields are the optional 300-character
truncated `コメント` field followed by one field per change entry, named
by the raw field key and valued by `new_value` with the `変更有`
fallback. -/
theorem c8_multi_update_refinement :
    ∀ (bu pfx : String) (data content : Json) (links cs : List Json)
      (lg : List String) (out : Message),
      data.find? "type" = some (.num 14) →
      data.find? "content" = some content →
      content.find? "link" = some (.arr links) →
      content.find? "changes" = some (.arr cs) →
      Backlog.create_post_body bu pfx data = (lg, .ok out) →
      ∃ e, out.embeds = [e] ∧
        e.description = .str (specMultiDesc bu pfx links) ∧
        embedFields e = specMultiFields links cs := by
  intro bu pfx data content links cs lg out hty hc hl hch h
  rw [backlog_dispatch hty rfl] at h
  have hsnd := congrArg Prod.snd h
  simp only [Backlog.run] at hsnd
  obtain ⟨c, hcc, hout⟩ := exceptMapOk hsnd
  subst hout
  simp only [Backlog.comps] at hcc
  obtain ⟨u, hu, hcc⟩ := exceptBindOk hcc
  obtain ⟨dc, hdc, hcc⟩ := exceptBindOk hcc
  rcases dc with ⟨desc, comment⟩
  obtain ⟨flds, hflds, hcc⟩ := exceptBindOk hcc
  have hceq := exceptPureOk hcc
  subst hceq
  obtain ⟨hdesc, hcomment⟩ := multi_desc_spec hc hl hdc
  subst hdesc
  subst hcomment
  have hfs := multi_parse_spec hc hch hflds
  refine ⟨_, rfl, rfl, ?_⟩
  rw [embedFields_if]
  rw [hfs]
  rfl

/-- The `content` object of the C8 witness payload. -/
def c8Content : Json :=
  .obj [
    ("link", .arr [
      .obj [("key_id", .num 1), ("title", .str "A"),
        ("comment", .obj [("content", .str "first")])],
      .obj [("key_id", .num 2), ("title", .str "B"),
        ("comment", .obj [("content", .str "second")])]]),
    ("changes", .arr [
      .obj [("field", .str "status"), ("new_value", .str "Done")],
      .obj [("field", .str "milestone")]])]

/-- The linked issues of the C8 witness payload. -/
def c8Links : List Json :=
  [.obj [("key_id", .num 1), ("title", .str "A"),
     ("comment", .obj [("content", .str "first")])],
   .obj [("key_id", .num 2), ("title", .str "B"),
     ("comment", .obj [("content", .str "second")])]]

/-- The change entries of the C8 witness payload. -/
def c8Changes : List Json :=
  [.obj [("field", .str "status"), ("new_value", .str "Done")],
   .obj [("field", .str "milestone")]]

/-- A concrete multi-issue-update payload with two commented links and two
changes. -/
def c8Payload : Json :=
  .obj [("type", .num 14),
    ("createdUser", .obj [("name", .str "bob")]),
    ("content", c8Content)]

/-- The message the backlog pipeline produces on `c8Payload`. -/
def c8Msg : Message :=
  { username := "backlog webhook", content := "課題を複数更新しました",
    embeds := [{ author := .str "bob", title := .str "",
                 url := .str "B/projects/P",
                 description := .str
                   "[P-1 A](B/view/P-1)\n[P-2 B](B/view/P-2)",
                 fields := some [⟨.str "コメント", .str "second", true⟩,
                   ⟨.str "status", .str "Done", true⟩,
                   ⟨.str "milestone", .str "変更有", true⟩] }] }

theorem c8_multi_update_witness :
    ∃ e, c8Msg.embeds = [e] ∧
      e.description = .str (specMultiDesc "B" "P" c8Links) ∧
      embedFields e = specMultiFields c8Links c8Changes :=
  c8_multi_update_refinement "B" "P" c8Payload c8Content c8Links c8Changes
    [] c8Msg rfl rfl rfl rfl rfl
